import Mathlib

/-!
Verification development for the codemie-code metrics pipeline.

Part 1 models the metrics delta queue, aggregator and syncer.  The
implementation files (SessionStore / SessionSyncer / MetricsSender) are not
part of the source tree given here — only their integration test
(`SessionSyncer - API Sync Validation`) is — so those definitions are
modelled from the specification (spec.md §3, §4.5–§4.7, §6) and carry a
`Modelled from the spec:` doc comment.

Part 2 embeds `detectStorageLayout` and `getOpenCodeStoragePath` from
`src/agents/plugins/opencode/opencode.paths.ts`.

Part 3 embeds the SQLite reader functions from
`src/agents/plugins/opencode/opencode.sqlite-reader.ts`.
-/

/-- Token counters of one `MetricDelta` (spec §3: absent fields default to 0). -/
structure Tokens where
  input : Nat := 0
  output : Nat := 0
  cacheRead : Nat := 0
  cacheCreation : Nat := 0
deriving DecidableEq

/-- Sync lifecycle state of a queued delta (spec §3). -/
inductive SyncStatus
  | pending
  | synced
  | failed
deriving DecidableEq

/-- Per-tool success/failure counters (spec §3 `toolStatus`). -/
structure ToolStat where
  success : Nat
  failure : Nat
deriving DecidableEq

/-- File-operation kind (spec §3 `fileOperations.type`). -/
inductive FileOpType
  | write
  | read
  | edit
  | delete
deriving DecidableEq

/-- One `fileOperations` entry of a delta (spec §3). -/
structure FileOp where
  type : FileOpType
  path : String
  linesAdded : Option Nat := none
  linesRemoved : Option Nat := none
deriving DecidableEq

/-- Modelled from the spec: the `MetricDelta` record of spec §3.  The
implementation module `src/agents/core/metrics/types.ts` is not present in
the source tree; field names follow spec §3 and the integration test. -/
structure MetricDelta where
  recordId : String
  sessionId : String
  agentSessionId : String
  timestamp : Nat
  tokens : Tokens
  tools : List (String × Nat)
  toolStatus : List (String × ToolStat)
  fileOperations : List FileOp
  models : List String
  userPrompts : List (String × Nat)
  syncStatus : SyncStatus
  syncAttempts : Nat
  syncedAt : Option Nat
deriving DecidableEq

/-- Modelled from the spec: `listPending(sessionId)` of spec §4.5 — all queue
records with `syncStatus == pending`, in append order.  The queue module
(SessionStore metrics JSONL) is not in the source tree. -/
def listPending (q : List MetricDelta) : List MetricDelta :=
  q.filter (fun r => r.syncStatus = SyncStatus.pending)

/-- Modelled from the spec: `markSynced(recordIds, syncedAt)` of spec §4.5 —
updates matching records to `synced`, sets `syncedAt`, increments
`syncAttempts` by exactly 1. -/
def markSynced (ids : List String) (syncedAt : Nat) (q : List MetricDelta) :
    List MetricDelta :=
  q.map (fun r =>
    if r.recordId ∈ ids then
      { r with syncStatus := SyncStatus.synced
               syncedAt := some syncedAt
               syncAttempts := r.syncAttempts + 1 }
    else r)

/-- Modelled from the spec: `markFailed(recordIds)` of spec §4.5 — sets
`syncStatus = failed`; no further automatic retry. -/
def markFailed (ids : List String) (q : List MetricDelta) : List MetricDelta :=
  q.map (fun r =>
    if r.recordId ∈ ids then { r with syncStatus := SyncStatus.failed } else r)

/-- Modelled from the spec: retry ceiling of spec §4.7 — `markRetry`
increments `syncAttempts`; if the count after increment reaches the
configured maximum the record transitions to `failed` instead. -/
def maxSyncAttempts : Nat := 3

/-- Modelled from the spec: `markRetry(recordIds)` combined with the §4.7
ceiling — increments `syncAttempts`, keeping `pending` below the maximum and
transitioning to `failed` at the maximum. -/
def markRetryOrFail (ids : List String) (q : List MetricDelta) :
    List MetricDelta :=
  q.map (fun r =>
    if r.recordId ∈ ids then
      if r.syncAttempts + 1 ≥ maxSyncAttempts then
        { r with syncAttempts := r.syncAttempts + 1
                 syncStatus := SyncStatus.failed }
      else { r with syncAttempts := r.syncAttempts + 1 }
    else r)

/-- Modelled from the spec: the aggregated outbound metric attributes (wire
names from `src/cli/commands/test-metrics.ts` and the integration test:
`total_input_tokens`, `total_tool_calls`, `files_created`, …). -/
structure SessionMetricAttrs where
  total_input_tokens : Nat
  total_output_tokens : Nat
  total_cache_read_input_tokens : Nat
  total_cache_creation_tokens : Nat
  total_tool_calls : Nat
  successful_tool_calls : Nat
  failed_tool_calls : Nat
  files_created : Nat
  files_modified : Nat
  files_deleted : Nat
  total_lines_added : Nat
  total_lines_removed : Nat
  total_user_prompts : Nat
  llm_model : String
deriving DecidableEq

/-- Modelled from the spec: the all-zero aggregate an aggregation pass
starts from. -/
def emptyAttrs : SessionMetricAttrs :=
  { total_input_tokens := 0
    total_output_tokens := 0
    total_cache_read_input_tokens := 0
    total_cache_creation_tokens := 0
    total_tool_calls := 0
    successful_tool_calls := 0
    failed_tool_calls := 0
    files_created := 0
    files_modified := 0
    files_deleted := 0
    total_lines_added := 0
    total_lines_removed := 0
    total_user_prompts := 0
    llm_model := "unknown" }

/-- Number of tool invocations recorded in one delta. -/
def toolCallCount (d : MetricDelta) : Nat :=
  (d.tools.map (fun kv => kv.2)).sum

/-- Modelled from the spec: folding one pending delta into the running
aggregate (spec §4.6: sums tokens, tool counts, tool status, file-operation
counters, line counts, prompt counts; representative model is the first
non-empty `models` entry seen, deterministically). -/
def addDelta (acc : SessionMetricAttrs) (d : MetricDelta) : SessionMetricAttrs :=
  { total_input_tokens := acc.total_input_tokens + d.tokens.input
    total_output_tokens := acc.total_output_tokens + d.tokens.output
    total_cache_read_input_tokens :=
      acc.total_cache_read_input_tokens + d.tokens.cacheRead
    total_cache_creation_tokens :=
      acc.total_cache_creation_tokens + d.tokens.cacheCreation
    total_tool_calls := acc.total_tool_calls + toolCallCount d
    successful_tool_calls :=
      acc.successful_tool_calls + (d.toolStatus.map (fun kv => kv.2.success)).sum
    failed_tool_calls :=
      acc.failed_tool_calls + (d.toolStatus.map (fun kv => kv.2.failure)).sum
    files_created :=
      acc.files_created +
        (d.fileOperations.filter (fun op => op.type = FileOpType.write)).length
    files_modified :=
      acc.files_modified +
        (d.fileOperations.filter (fun op => op.type = FileOpType.edit)).length
    files_deleted :=
      acc.files_deleted +
        (d.fileOperations.filter (fun op => op.type = FileOpType.delete)).length
    total_lines_added :=
      acc.total_lines_added +
        (d.fileOperations.map (fun op => op.linesAdded.getD 0)).sum
    total_lines_removed :=
      acc.total_lines_removed +
        (d.fileOperations.map (fun op => op.linesRemoved.getD 0)).sum
    total_user_prompts :=
      acc.total_user_prompts + (d.userPrompts.map (fun kv => kv.2)).sum
    llm_model :=
      if acc.llm_model = "unknown" ∧ d.models ≠ [] then
        (d.models.head?).getD "unknown"
      else acc.llm_model }

/-- Modelled from the spec: the Aggregator of spec §4.6 — folds the pending
deltas of one session into exactly one outbound summary object. -/
def aggregate (pending : List MetricDelta) : SessionMetricAttrs :=
  pending.foldl addDelta emptyAttrs

/-- Result shape of one `sync` invocation (spec §6: `{success, message, …}`). -/
structure SyncResult where
  success : Bool
  message : String
deriving DecidableEq

/-- Classification of the remote response seen by the Syncer (spec §4.7). -/
inductive RemoteOutcome
  | ok
  | clientError
  | serverError
deriving DecidableEq

/-- State returned by one modelled sync invocation: the caller-visible
result, the list of outbound POSTed metric objects, and the queue after the
state transitions were committed. -/
structure SyncRun where
  result : SyncResult
  calls : List SessionMetricAttrs
  queue : List MetricDelta
deriving DecidableEq

/-- Modelled from the spec: the Syncer of spec §4.7 (`SessionSyncer.sync` is
not in the source tree).  Reads the pending set; when it is empty, signals
"nothing to sync" and performs no network call; otherwise POSTs exactly one
aggregated metric and commits `markSynced` / `markFailed` /
retry-with-ceiling back to the queue according to the remote outcome. -/
def sync (q : List MetricDelta) (remote : RemoteOutcome) (now : Nat) : SyncRun :=
  let pending := listPending q
  if pending.isEmpty then
    { result := { success := true, message := "No pending deltas to sync" }
      calls := []
      queue := q }
  else
    let metric := aggregate pending
    let ids := pending.map (fun d => d.recordId)
    match remote with
    | RemoteOutcome.ok =>
        { result := { success := true, message := "Synced metrics" }
          calls := [metric]
          queue := markSynced ids now q }
    | RemoteOutcome.clientError =>
        { result := { success := false, message := "Client error" }
          calls := [metric]
          queue := markFailed ids q }
    | RemoteOutcome.serverError =>
        { result := { success := false, message := "Server error" }
          calls := [metric]
          queue := markRetryOrFail ids q }

/-- Layout classification returned by `detectStorageLayout`
(opencode.paths.ts `StorageLayoutResult.layout`). -/
inductive Layout
  | postMigration
  | legacy
  | mixed
  | sqlite
  | unknown
deriving DecidableEq

/-- Readability/content of the `migration` marker file: either present but
unreadable (`readFile` throws) or present with the given text content. -/
inductive MigFile
  | unreadable
  | content (s : String)
deriving DecidableEq

/-- Observable on-disk footprint probed by `detectStorageLayout`
(opencode.paths.ts): each field is the `existsSync` answer for the
corresponding path relative to the storage root, and `migrationFile` is
`none` when `storagePath/migration` does not exist. -/
structure StorageFS where
  migrationFile : Option MigFile
  hasSessionDir : Bool
  hasMessageDir : Bool
  hasPartDir : Bool
  hasDbFile : Bool
  hasProjectDir : Bool
deriving DecidableEq

/-- Result record of `detectStorageLayout` (opencode.paths.ts
`StorageLayoutResult`). -/
structure StorageLayoutResult where
  layout : Layout
  migrationVersion : Int
  postMigrationPath : Option String
  legacyPaths : Option (List String)
  dbPath : Option String
deriving DecidableEq

/-- Numeric value of a list of decimal digit characters. -/
def natFromDigits (ds : List Char) : Nat :=
  ds.foldl (fun acc c => acc * 10 + (c.toNat - 48)) 0

/-- JavaScript `parseInt(s, 10)` on an already-trimmed string: an optional
sign followed by a longest decimal-digit prefix; `none` models `NaN`. -/
def jsParseInt (s : String) : Option Int :=
  let cs := s.data
  let signed : Int × List Char :=
    match cs with
    | [] => (1, [])
    | c :: t =>
        if c = '-' then (-1, t)
        else if c = '+' then (1, t)
        else (1, cs)
  let ds := signed.2.takeWhile Char.isDigit
  if ds.isEmpty then none
  else some (signed.1 * (natFromDigits ds : Int))

/-- JavaScript `String.prototype.trim`: strip whitespace from both ends
(modelled at the character-list level so it evaluates by `decide`). -/
def jsTrim (s : String) : String :=
  String.mk
    (((s.data.dropWhile Char.isWhitespace).reverse.dropWhile
        Char.isWhitespace).reverse)

/-- Migration version computed by `detectStorageLayout`: missing or
unreadable marker file gives 0, otherwise
`parseInt(content.trim(), 10) || 0`. -/
def migrationVersionOf (fs : StorageFS) : Int :=
  match fs.migrationFile with
  | none => 0
  | some MigFile.unreadable => 0
  | some (MigFile.content s) => (jsParseInt (jsTrim s)).getD 0

/-- POSIX `dirname`-then-`join` for the two sibling paths the detector
probes; path arithmetic is irrelevant to the claims, so a plain textual
model of `join(dirname(p), name)` is used. -/
def siblingPath (storagePath : String) (name : String) : String :=
  String.intercalate "/" ((storagePath.splitOn "/").dropLast ++ [name])

/-- Embedding of `detectStorageLayout` (opencode.paths.ts).  Mirrors the
source branch for branch: migration version, post-migration tree check
(`session/`, `message/`, `part/`), sqlite check (`opencode.db` one level
above the storage root), legacy check (`project/` one level above), then
the priority chain of `if` returns. -/
def detectStorageLayout (storagePath : String) (fs : StorageFS) :
    StorageLayoutResult :=
  let migrationVersion := migrationVersionOf fs
  let hasPostMigration := fs.hasSessionDir && fs.hasMessageDir && fs.hasPartDir
  let dbPath := siblingPath storagePath "opencode.db"
  let hasSqlite := fs.hasDbFile
  let projectDir := siblingPath storagePath "project"
  let hasLegacy := fs.hasProjectDir
  if migrationVersion ≥ 1 ∧ hasPostMigration then
    { layout := Layout.postMigration
      migrationVersion := migrationVersion
      postMigrationPath := some storagePath
      legacyPaths := none
      dbPath := if hasSqlite then some dbPath else none }
  else if hasPostMigration ∧ hasLegacy then
    { layout := Layout.mixed
      migrationVersion := migrationVersion
      postMigrationPath := some storagePath
      legacyPaths := some [projectDir]
      dbPath := if hasSqlite then some dbPath else none }
  else if hasPostMigration then
    { layout := Layout.postMigration
      migrationVersion := migrationVersion
      postMigrationPath := some storagePath
      legacyPaths := none
      dbPath := if hasSqlite then some dbPath else none }
  else if hasSqlite ∧ ¬hasPostMigration then
    { layout := Layout.sqlite
      migrationVersion := migrationVersion
      postMigrationPath := none
      legacyPaths := none
      dbPath := some dbPath }
  else if hasLegacy then
    { layout := Layout.legacy
      migrationVersion := migrationVersion
      postMigrationPath := none
      legacyPaths := some [projectDir]
      dbPath := none }
  else
    { layout := Layout.unknown
      migrationVersion := migrationVersion
      postMigrationPath := none
      legacyPaths := none
      dbPath := none }

/-- Classifier written from the words of claim C4 (and spec §4.1): version
marker plus complete post-migration tree, then mixed, then sqlite when the
database file is present and both file-based trees are absent, then legacy
when the legacy tree alone is present, else unknown. -/
def claimedLayout (fs : StorageFS) : Layout :=
  let hasPostMigration := fs.hasSessionDir && fs.hasMessageDir && fs.hasPartDir
  if migrationVersionOf fs ≥ 1 ∧ hasPostMigration then Layout.postMigration
  else if hasPostMigration ∧ fs.hasProjectDir then Layout.mixed
  else if fs.hasDbFile ∧ ¬hasPostMigration ∧ ¬fs.hasProjectDir then
    Layout.sqlite
  else if fs.hasProjectDir ∧ ¬hasPostMigration then Layout.legacy
  else Layout.unknown

/-- Classifier of the amended claim C4: identical to `claimedLayout` except
that a complete post-migration tree without a version marker still
classifies as post-migration, and the sqlite rule requires only the
post-migration tree (not the legacy tree) to be absent. -/
def amendedLayout (fs : StorageFS) : Layout :=
  let hasPostMigration := fs.hasSessionDir && fs.hasMessageDir && fs.hasPartDir
  if migrationVersionOf fs ≥ 1 ∧ hasPostMigration then Layout.postMigration
  else if hasPostMigration ∧ fs.hasProjectDir then Layout.mixed
  else if hasPostMigration then Layout.postMigration
  else if fs.hasDbFile then Layout.sqlite
  else if fs.hasProjectDir then Layout.legacy
  else Layout.unknown

/-- Result of a finished `exec` of the sqlite3 CLI (exit code and streams). -/
structure ExecResult where
  code : Int
  stdout : String
  stderr : String
deriving DecidableEq

/-- Outcome of `exec('sqlite3', …)` as observed by `queryDb`: the promise
either rejects (spawn failure or the 10s timeout) or resolves with an exit
code and captured output. -/
inductive ExecOutcome
  | threw
  | finished (r : ExecResult)
deriving DecidableEq

/-- Embedding of `queryDb` (opencode.sqlite-reader.ts): non-zero exit code,
empty output, literal `[]` output, a rejected exec promise, and a
`JSON.parse` failure (thrown inside the `try`, caught) all yield `[]`.
`parseJson` stands for `JSON.parse` specialised to the expected row type. -/
def queryDb {T : Type} (outcome : ExecOutcome)
    (parseJson : String → Option (List T)) : List T :=
  match outcome with
  | ExecOutcome.threw => []
  | ExecOutcome.finished r =>
      if r.code ≠ 0 then []
      else
        let output := jsTrim r.stdout
        if output = "" ∨ output = "[]" then []
        else
          match parseJson output with
          | none => []
          | some rows => rows

/-- Parse result of one message row's JSON `data` blob: `JSON.parse` either
throws (malformed) or yields a record from which the reader casts `role` and
`time.created`; the remaining payload fields (providerID, tokens, …) are
plain casts carried through unchanged and are modelled opaquely as `rest`. -/
structure MsgData where
  role : String
  timeCreated : Option Nat
  rest : String
deriving DecidableEq

/-- JSON `data` blob of a message row: malformed, or parsed content. -/
inductive MsgBlob
  | malformed
  | parsed (d : MsgData)
deriving DecidableEq

/-- Raw row of the `message` table (opencode.sqlite-reader.ts `MessageRow`). -/
structure MessageRow where
  id : String
  session_id : String
  data : MsgBlob
deriving DecidableEq

/-- Normalized message built by `readMessagesFromDb`: row columns win for
`id`/`sessionID`, `time.created` defaults to 0, the `assistant` role picks
the assistant shape and anything else the user shape. -/
structure OpenCodeMessage where
  id : String
  sessionID : String
  timeCreated : Nat
  isAssistant : Bool
  rest : String
deriving DecidableEq

/-- Body of the per-row `try` block of `readMessagesFromDb`: `none` models
the caught `JSON.parse` exception (row skipped and logged). -/
def parseMessageRow (row : MessageRow) : Option OpenCodeMessage :=
  match row.data with
  | MsgBlob.malformed => none
  | MsgBlob.parsed d =>
      some { id := row.id
             sessionID := row.session_id
             timeCreated := d.timeCreated.getD 0
             isAssistant := d.role = "assistant"
             rest := d.rest }

/-- Sort comparison of `readMessagesFromDb`:
`(a.time?.created || 0) - (b.time?.created || 0)` as a `Bool` ordering. -/
def msgLE (a b : OpenCodeMessage) : Bool :=
  a.timeCreated ≤ b.timeCreated

/-- Embedding of `readMessagesFromDb` (opencode.sqlite-reader.ts) applied to
the rows returned by `queryDb`: parse each row inside a try/catch, skip
malformed rows, then sort by creation time with JavaScript's stable
`Array.prototype.sort` (modelled by the stable `List.mergeSort`). -/
def readMessagesFromDb (rows : List MessageRow) : List OpenCodeMessage :=
  (rows.filterMap parseMessageRow).mergeSort msgLE

/-- JSON value inside a part payload object. -/
inductive JVal
  | str (s : String)
  | num (n : Int)
  | boolean (b : Bool)
  | null
deriving DecidableEq

/-- JavaScript object modelled as key/value pairs. -/
abbrev JObj := List (String × JVal)

/-- JSON `data` blob of a part row: malformed, or a parsed object. -/
inductive PartBlob
  | malformed
  | parsed (d : JObj)
deriving DecidableEq

/-- Raw row of the `part` table (opencode.sqlite-reader.ts `PartRow`). -/
structure PartRow where
  id : String
  message_id : String
  session_id : String
  data : PartBlob
deriving DecidableEq

/-- JavaScript property assignment on an object: any existing binding for
the key is replaced by the new value. -/
def setKey (o : JObj) (k : String) (v : JVal) : JObj :=
  o.filter (fun kv => kv.1 ≠ k) ++ [(k, v)]

/-- Property lookup on a modelled JavaScript object. -/
def lookupKey (o : JObj) (k : String) : Option JVal :=
  (o.find? (fun kv => kv.1 = k)).map (fun kv => kv.2)

/-- The spread-and-override of `readAllPartsForSessionFromDb`:
`{ ...data, id: row.id, messageID: row.message_id, sessionID: row.session_id }`. -/
def mergePart (row : PartRow) (d : JObj) : JObj :=
  setKey (setKey (setKey d "id" (JVal.str row.id))
      "messageID" (JVal.str row.message_id))
    "sessionID" (JVal.str row.session_id)

/-- One iteration of the row loop of `readAllPartsForSessionFromDb`: a
malformed blob is skipped (caught exception), a parsed one is merged with
the row columns and pushed onto the bucket of its `message_id`. -/
def partStep (acc : String → List JObj) (row : PartRow) : String → List JObj :=
  match row.data with
  | PartBlob.malformed => acc
  | PartBlob.parsed d =>
      fun k => if k = row.message_id then acc k ++ [mergePart row d] else acc k

/-- Embedding of `readAllPartsForSessionFromDb` (opencode.sqlite-reader.ts)
applied to the rows returned by `queryDb`: the grouping map
`messageId -> OpenCodePart[]` is modelled as a function defaulting to the
empty bucket. -/
def readAllPartsForSessionFromDb (rows : List PartRow) : String → List JObj :=
  rows.foldl partStep (fun _ => [])

/-- The single-quote character, used by the SQL string escaping. -/
def sqChar : Char := Char.ofNat 39

/-- The single-quote character as a one-character string. -/
def sqS : String := String.singleton sqChar

/-- Embedding of `escapeSqlString` (opencode.sqlite-reader.ts):
`value.replace(/'/g, "''")` — every single quote is doubled. -/
def escapeSqlString (value : String) : String :=
  String.mk (value.data.flatMap (fun c => if c = sqChar then [sqChar, sqChar] else [c]))

/-- Fixed text of the messages query up to the opening quote of the session
id literal. -/
def messagesSqlPrefix : String :=
  "SELECT id, session_id, data FROM message WHERE session_id = " ++ sqS

/-- SQL text passed to the sqlite3 CLI by `readMessagesFromDb`. -/
def messagesSql (sessionId : String) : String :=
  messagesSqlPrefix ++ escapeSqlString sessionId ++ sqS

/-- Fixed text of the parts query up to the opening quote of the session id
literal. -/
def partsSqlPrefix : String :=
  "SELECT id, message_id, session_id, data FROM part WHERE session_id = " ++ sqS

/-- Fixed text of the parts query after the session id literal. -/
def partsSqlSuffix : String :=
  sqS ++ " ORDER BY id ASC"

/-- SQL text passed to the sqlite3 CLI by `readAllPartsForSessionFromDb`. -/
def partsSql (sessionId : String) : String :=
  partsSqlPrefix ++ escapeSqlString sessionId ++ partsSqlSuffix

/-- Inverse scan of the SQL quote escaping: succeeds only when every single
quote in the input is immediately followed by a second one (quotes occur
only as doubled pairs), and then recovers the unescaped text. -/
def unescapeChars : List Char → Option (List Char)
  | [] => some []
  | c :: cs =>
      if c = sqChar then
        match cs with
        | [] => none
        | c2 :: cs2 =>
            if c2 = sqChar then (unescapeChars cs2).map (fun l => sqChar :: l)
            else none
      else (unescapeChars cs).map (fun l => c :: l)

/-- Platform tag of `process.platform` as branched on by
`getOpenCodeStoragePath`. -/
inductive Platform
  | darwin
  | win32
  | linuxOS
deriving DecidableEq

/-- Environment observed by `getOpenCodeStoragePath` (opencode.paths.ts):
the three environment variables, the platform and the home directory. -/
structure Env where
  opencodeStoragePath : Option String
  xdgDataHome : Option String
  localAppData : Option String
  platform : Platform
  home : String
deriving DecidableEq

/-- Textual model of `path.join` for the storage path candidates. -/
def joinPath (parts : List String) : String :=
  String.intercalate "/" parts

/-- Embedding of `getOpenCodeStoragePath` (opencode.paths.ts): explicit
override first, then XDG_DATA_HOME, then platform defaults; in every branch
a path is returned only when `existsSync` answers true, else `null`. -/
def getOpenCodeStoragePath (env : Env) (pathExists : String → Bool) :
    Option String :=
  match env.opencodeStoragePath with
  | some customPath => if pathExists customPath then some customPath else none
  | none =>
      let storagePath :=
        match env.xdgDataHome with
        | some x => joinPath [x, "opencode", "storage"]
        | none =>
            match env.platform with
            | Platform.darwin =>
                joinPath [env.home, "Library", "Application Support",
                  "opencode", "storage"]
            | Platform.win32 =>
                match env.localAppData with
                | some appData => joinPath [appData, "opencode", "storage"]
                | none =>
                    joinPath [env.home, ".local", "share", "opencode",
                      "storage"]
            | Platform.linuxOS =>
                joinPath [env.home, ".local", "share", "opencode", "storage"]
      if pathExists storagePath then some storagePath else none

/-- Concrete pending delta with 500 input tokens (the first delta of the
"aggregate multiple deltas" test scenario). -/
def exDelta1 : MetricDelta :=
  { recordId := "delta-1"
    sessionId := "test-syncer-metrics"
    agentSessionId := "test-session-1"
    timestamp := 100
    tokens := { input := 500, output := 250, cacheRead := 0, cacheCreation := 0 }
    tools := [("write", 1)]
    toolStatus := [("write", { success := 1, failure := 0 })]
    fileOperations := []
    models := ["anthropic/claude-sonnet-4-6"]
    userPrompts := []
    syncStatus := SyncStatus.pending
    syncAttempts := 0
    syncedAt := none }

/-- Concrete pending delta with 300 input tokens (the second delta of the
"aggregate multiple deltas" test scenario). -/
def exDelta2 : MetricDelta :=
  { recordId := "delta-2"
    sessionId := "test-syncer-metrics"
    agentSessionId := "test-session-1"
    timestamp := 1100
    tokens := { input := 300, output := 150, cacheRead := 0, cacheCreation := 0 }
    tools := [("read", 1)]
    toolStatus := [("read", { success := 1, failure := 0 })]
    fileOperations := []
    models := ["anthropic/claude-sonnet-4-6"]
    userPrompts := []
    syncStatus := SyncStatus.pending
    syncAttempts := 0
    syncedAt := none }

/-- Queue holding the two pending deltas above. -/
def exQueue2 : List MetricDelta := [exDelta1, exDelta2]

/-- Concrete already-synced delta (the "no pending deltas" test scenario). -/
def exSyncedDelta : MetricDelta :=
  { recordId := "delta-1"
    sessionId := "test-syncer-empty"
    agentSessionId := "test-session-1"
    timestamp := 100
    tokens := { input := 100, output := 50, cacheRead := 0, cacheCreation := 0 }
    tools := []
    toolStatus := []
    fileOperations := []
    models := []
    userPrompts := []
    syncStatus := SyncStatus.synced
    syncAttempts := 1
    syncedAt := some 200 }

/-- Queue whose only record is already synced, so nothing is pending. -/
def exSyncedQueue : List MetricDelta := [exSyncedDelta]

/-- Storage footprint with the database file and the legacy project tree
both present and no post-migration tree: the counterexample input of C4. -/
def cexFS : StorageFS :=
  { migrationFile := none
    hasSessionDir := false
    hasMessageDir := false
    hasPartDir := false
    hasDbFile := true
    hasProjectDir := true }

/-- Storage footprint whose `migration` marker holds non-numeric text. -/
def fsBadMarker : StorageFS :=
  { migrationFile := some (MigFile.content "abc")
    hasSessionDir := true
    hasMessageDir := true
    hasPartDir := true
    hasDbFile := false
    hasProjectDir := false }

/-- Message row whose JSON blob parses. -/
def goodMsgRow : MessageRow :=
  { id := "msg-1"
    session_id := "ses-1"
    data := MsgBlob.parsed { role := "assistant", timeCreated := some 5, rest := "" } }

/-- Message row whose JSON blob is malformed. -/
def badMsgRow : MessageRow :=
  { id := "msg-bad", session_id := "ses-1", data := MsgBlob.malformed }

/-- Part row whose JSON blob parses and carries payload fields `id` and
`messageID` that conflict with the row columns. -/
def conflictPartRow : PartRow :=
  { id := "part-1"
    message_id := "msg-1"
    session_id := "ses-1"
    data := PartBlob.parsed
      [("id", JVal.str "payload-id"),
       ("messageID", JVal.str "payload-msg"),
       ("type", JVal.str "text")] }

/-- The payload object of `conflictPartRow`. -/
def conflictPayload : JObj :=
  [("id", JVal.str "payload-id"),
   ("messageID", JVal.str "payload-msg"),
   ("type", JVal.str "text")]

/-- Part row whose JSON blob is malformed. -/
def badPartRow : PartRow :=
  { id := "part-bad", message_id := "msg-1", session_id := "ses-1"
    data := PartBlob.malformed }

/-- Exec result of a failing sqlite3 run (non-zero exit code). -/
def execFail : ExecResult :=
  { code := 1, stdout := "", stderr := "Error: file is not a database" }

/-- Exec result of a successful sqlite3 run with empty output. -/
def execEmpty : ExecResult :=
  { code := 0, stdout := "", stderr := "" }

/-- A `JSON.parse` stand-in that always fails, for witness instances. -/
def parseNone (_ : String) : Option (List Nat) := none

/-- Environment with an explicit storage path override. -/
def envEx : Env :=
  { opencodeStoragePath := some "/data/opencode/storage"
    xdgDataHome := none
    localAppData := none
    platform := Platform.linuxOS
    home := "/home/u" }

/-- File-existence oracle for the witness environment. -/
def existsEx (p : String) : Bool :=
  p = "/data/opencode/storage"

/-- Folding deltas adds their input tokens to the accumulator. -/
theorem foldl_addDelta_input (p : List MetricDelta) (acc : SessionMetricAttrs) :
    (p.foldl addDelta acc).total_input_tokens
      = acc.total_input_tokens + (p.map (fun d => d.tokens.input)).sum := by
  induction p generalizing acc with
  | nil => simp
  | cons d t ih =>
      simp only [List.foldl_cons, List.map_cons, List.sum_cons, ih, addDelta]
      omega

/-- Folding deltas adds their output tokens to the accumulator. -/
theorem foldl_addDelta_output (p : List MetricDelta) (acc : SessionMetricAttrs) :
    (p.foldl addDelta acc).total_output_tokens
      = acc.total_output_tokens + (p.map (fun d => d.tokens.output)).sum := by
  induction p generalizing acc with
  | nil => simp
  | cons d t ih =>
      simp only [List.foldl_cons, List.map_cons, List.sum_cons, ih, addDelta]
      omega

/-- Folding deltas adds their tool-call counts to the accumulator. -/
theorem foldl_addDelta_tools (p : List MetricDelta) (acc : SessionMetricAttrs) :
    (p.foldl addDelta acc).total_tool_calls
      = acc.total_tool_calls + (p.map toolCallCount).sum := by
  induction p generalizing acc with
  | nil => simp
  | cons d t ih =>
      simp only [List.foldl_cons, List.map_cons, List.sum_cons, ih, addDelta]
      omega

/-- C1: with a non-empty pending set, one sync invocation makes exactly one
outbound POST of the single aggregated metric, and the aggregate's
`total_input_tokens`, `total_output_tokens` and `total_tool_calls` are the
exact sums of the pending deltas' values. -/
theorem sync_single_aggregated_call (q : List MetricDelta)
    (remote : RemoteOutcome) (now : Nat) (h : listPending q ≠ []) :
    (sync q remote now).calls = [aggregate (listPending q)] ∧
    (aggregate (listPending q)).total_input_tokens
      = ((listPending q).map (fun d => d.tokens.input)).sum ∧
    (aggregate (listPending q)).total_output_tokens
      = ((listPending q).map (fun d => d.tokens.output)).sum ∧
    (aggregate (listPending q)).total_tool_calls
      = ((listPending q).map toolCallCount).sum := by
  have hne : (listPending q).isEmpty = false := by
    simpa [List.isEmpty_iff] using h
  refine ⟨?_, ?_, ?_, ?_⟩
  · cases remote <;> simp [sync, hne]
  · simpa [aggregate, emptyAttrs] using
      foldl_addDelta_input (listPending q) emptyAttrs
  · simpa [aggregate, emptyAttrs] using
      foldl_addDelta_output (listPending q) emptyAttrs
  · simpa [aggregate, emptyAttrs] using
      foldl_addDelta_tools (listPending q) emptyAttrs

/-- C1 witness: two pending deltas with input tokens 500 and 300 yield one
outbound call whose aggregate reports `total_input_tokens = 800`. -/
theorem sync_single_aggregated_call_witness :
    listPending exQueue2 ≠ [] ∧
    (sync exQueue2 RemoteOutcome.ok 0).calls = [aggregate (listPending exQueue2)] ∧
    (aggregate (listPending exQueue2)).total_input_tokens = 800 := by
  have h : listPending exQueue2 ≠ [] := by decide
  have r := sync_single_aggregated_call exQueue2 RemoteOutcome.ok 0 h
  refine ⟨h, r.1, ?_⟩
  rw [r.2.1]
  decide

/-- C2: with no pending records, `sync` returns success with the "nothing to
sync" message and performs zero network calls (the queue is untouched). -/
theorem sync_no_pending_no_calls (q : List MetricDelta)
    (remote : RemoteOutcome) (now : Nat) (h : listPending q = []) :
    (sync q remote now).result.success = true ∧
    (sync q remote now).result.message = "No pending deltas to sync" ∧
    (sync q remote now).calls = [] ∧
    (sync q remote now).queue = q := by
  simp [sync, h]

/-- C2 witness: a queue whose only record is already synced produces a
successful no-op sync with zero calls. -/
theorem sync_no_pending_no_calls_witness :
    listPending exSyncedQueue = [] ∧
    (sync exSyncedQueue RemoteOutcome.ok 0).result.success = true ∧
    (sync exSyncedQueue RemoteOutcome.ok 0).result.message
      = "No pending deltas to sync" ∧
    (sync exSyncedQueue RemoteOutcome.ok 0).calls = [] := by
  have h : listPending exSyncedQueue = [] := by decide
  have r := sync_no_pending_no_calls exSyncedQueue RemoteOutcome.ok 0 h
  exact ⟨h, r.1, r.2.1, r.2.2.1⟩

/-- Well-formedness invariant of spec §3: `syncedAt` is present on a record
iff its `syncStatus` is `synced`. -/
def wfQueue (q : List MetricDelta) : Prop :=
  ∀ r ∈ q, (r.syncedAt.isSome = true ↔ r.syncStatus = SyncStatus.synced)

/-- C3: a pending delta with `syncAttempts = 0` that is successfully synced
is persisted afterwards with `syncStatus = synced`, `syncAttempts = 1` and
`syncedAt` set; and the `syncedAt`-iff-`synced` invariant is preserved. -/
theorem sync_ok_marks_synced (q : List MetricDelta) (d : MetricDelta)
    (now : Nat) (hwf : wfQueue q) (hd : d ∈ q)
    (hp : d.syncStatus = SyncStatus.pending) (ha : d.syncAttempts = 0) :
    ({ d with syncStatus := SyncStatus.synced
              syncAttempts := 1
              syncedAt := some now } ∈ (sync q RemoteOutcome.ok now).queue) ∧
    wfQueue (sync q RemoteOutcome.ok now).queue := by
  have hdp : d ∈ listPending q := by
    simp [listPending, List.mem_filter, hd, hp]
  have hne : (listPending q).isEmpty = false := by
    simpa [List.isEmpty_iff] using List.ne_nil_of_mem hdp
  have hq : (sync q RemoteOutcome.ok now).queue
      = markSynced ((listPending q).map (fun x => x.recordId)) now q := by
    simp [sync, hne]
  have hid : d.recordId ∈ (listPending q).map (fun x => x.recordId) :=
    List.mem_map_of_mem _ hdp
  constructor
  · rw [hq]
    have : ({ d with syncStatus := SyncStatus.synced
                     syncAttempts := 1
                     syncedAt := some now } : MetricDelta)
        = (fun r => if r.recordId ∈ (listPending q).map (fun x => x.recordId) then
            { r with syncStatus := SyncStatus.synced
                     syncedAt := some now
                     syncAttempts := r.syncAttempts + 1 }
          else r) d := by
      simp [hid, ha]
    rw [this]
    exact List.mem_map_of_mem _ hd
  · rw [hq]
    intro r' hr'
    rcases List.mem_map.mp hr' with ⟨r, hr, hrr⟩
    by_cases hmem : r.recordId ∈ (listPending q).map (fun x => x.recordId)
    · subst hrr
      simp [hmem]
    · subst hrr
      simp only [hmem, if_neg, if_false]
      simpa [hmem] using hwf r hr

/-- C3 witness: the pending delta with 500 input tokens and zero attempts,
successfully synced at time 7, is persisted as synced with one attempt and a
`syncedAt` value, and the invariant holds on the whole queue. -/
theorem sync_ok_marks_synced_witness :
    wfQueue exQueue2 ∧ exDelta1 ∈ exQueue2 ∧
    exDelta1.syncStatus = SyncStatus.pending ∧ exDelta1.syncAttempts = 0 ∧
    ({ exDelta1 with syncStatus := SyncStatus.synced
                     syncAttempts := 1
                     syncedAt := some 7 }
        ∈ (sync exQueue2 RemoteOutcome.ok 7).queue) ∧
    wfQueue (sync exQueue2 RemoteOutcome.ok 7).queue := by
  have hwf : wfQueue exQueue2 := by
    intro r hr
    fin_cases hr <;> simp [exDelta1, exDelta2]
  have hd : exDelta1 ∈ exQueue2 := by simp [exQueue2]
  have hp : exDelta1.syncStatus = SyncStatus.pending := by decide
  have ha : exDelta1.syncAttempts = 0 := by decide
  have r := sync_ok_marks_synced exQueue2 exDelta1 7 hwf hd hp ha
  exact ⟨hwf, hd, hp, ha, r.1, r.2⟩

/-- C4 counterexample: with the database file and the legacy project tree
both present and no post-migration tree, the code classifies the layout as
`sqlite`, while the claim's priority rules classify it as `legacy` (its
sqlite rule requires the legacy tree to be absent). -/
theorem detect_layout_claim_counterexample :
    (detectStorageLayout "root/storage" cexFS).layout = Layout.sqlite ∧
    claimedLayout cexFS = Layout.legacy ∧
    Layout.sqlite ≠ Layout.legacy := by
  refine ⟨?_, by decide, by decide⟩
  decide

/-- C4 (amended): `detectStorageLayout` classifies by the priority order:
version marker (≥ 1) plus complete post-migration tree → post-migration;
both legacy and post-migration trees present → mixed; post-migration tree
present (even without the marker) → post-migration; database file present
and post-migration tree absent (regardless of the legacy tree) → sqlite;
legacy tree present → legacy; otherwise unknown. -/
theorem detect_layout_priority (storagePath : String) (fs : StorageFS) :
    (detectStorageLayout storagePath fs).layout = amendedLayout fs := by
  obtain ⟨mig, s, m, p, db, proj⟩ := fs
  by_cases hm : migrationVersionOf ⟨mig, s, m, p, db, proj⟩ ≥ 1 <;>
    cases s <;> cases m <;> cases p <;> cases db <;> cases proj <;>
      simp [detectStorageLayout, amendedLayout, hm]

/-- C5: an unreadable `migration` marker file, or one whose content has no
parsable integer, makes `detectStorageLayout` treat the migration version
as 0, and the whole classification result is the one it computes when the
marker file is absent — never an error (the embedding is a total
function). -/
theorem detect_layout_bad_marker (storagePath : String) (fs : StorageFS)
    (h : fs.migrationFile = some MigFile.unreadable ∨
      ∃ s, fs.migrationFile = some (MigFile.content s) ∧
        jsParseInt (jsTrim s) = none) :
    (detectStorageLayout storagePath fs).migrationVersion = 0 ∧
    detectStorageLayout storagePath fs
      = detectStorageLayout storagePath { fs with migrationFile := none } := by
  obtain ⟨mig, s, m, p, db, proj⟩ := fs
  have h0 : migrationVersionOf ⟨mig, s, m, p, db, proj⟩ = 0 := by
    rcases h with h | ⟨c, hc, hp⟩ <;>
      simp_all [migrationVersionOf]
  have h0' : migrationVersionOf ⟨none, s, m, p, db, proj⟩ = 0 := by
    simp [migrationVersionOf]
  constructor
  · simp only [detectStorageLayout, h0]
    split_ifs <;> rfl
  · simp [detectStorageLayout, h0, h0']

/-- C5 witness: a marker file containing the text "abc" yields migration
version 0 and the same classification as an absent marker file. -/
theorem detect_layout_bad_marker_witness :
    (fsBadMarker.migrationFile = some (MigFile.content "abc") ∧
      jsParseInt (jsTrim "abc") = none) ∧
    (detectStorageLayout "root/storage" fsBadMarker).migrationVersion = 0 ∧
    detectStorageLayout "root/storage" fsBadMarker
      = detectStorageLayout "root/storage"
          { fsBadMarker with migrationFile := none } := by
  have hh : fsBadMarker.migrationFile = some (MigFile.content "abc") ∧
      jsParseInt (jsTrim "abc") = none := by
    constructor
    · decide
    · decide
  have r := detect_layout_bad_marker "root/storage" fsBadMarker
    (Or.inr ⟨"abc", hh.1, hh.2⟩)
  exact ⟨hh, r.1, r.2⟩

/-- The message comparison is transitive. -/
theorem msgLE_trans : ∀ (a b c : OpenCodeMessage),
    msgLE a b → msgLE b c → msgLE a c := by
  intro a b c h1 h2
  simp only [msgLE, decide_eq_true_eq] at *
  omega

/-- The message comparison is total. -/
theorem msgLE_total : ∀ (a b : OpenCodeMessage), msgLE a b || msgLE b a := by
  intro a b
  simp only [msgLE, Bool.or_eq_true, decide_eq_true_eq]
  omega

/-- C6: `readMessagesFromDb` returns the parsed rows sorted ascending by
creation time; the sort is stable — restricted to any single creation time
the output keeps the original row order — so the output is a deterministic
function of the row list and two reads of the same data are identical. -/
theorem readMessages_sorted_stable (rows : List MessageRow) :
    (readMessagesFromDb rows).Pairwise
      (fun a b => a.timeCreated ≤ b.timeCreated) ∧
    List.Perm (readMessagesFromDb rows) (rows.filterMap parseMessageRow) ∧
    ∀ k : Nat,
      (readMessagesFromDb rows).filter (fun m => m.timeCreated = k)
        = (rows.filterMap parseMessageRow).filter
            (fun m => m.timeCreated = k) := by
  refine ⟨?_, List.mergeSort_perm _ _, ?_⟩
  · have h := List.sorted_mergeSort msgLE_trans msgLE_total
      (rows.filterMap parseMessageRow)
    exact h.imp (by
      intro a b hab
      simpa [msgLE] using hab)
  · intro k
    have hcp : ((rows.filterMap parseMessageRow).filter
        (fun m => m.timeCreated = k)).Pairwise
        (fun a b => msgLE a b = true) := by
      apply List.pairwise_of_forall_mem_list
      intro a ha b hb
      have ha' := (List.mem_filter.mp ha).2
      have hb' := (List.mem_filter.mp hb).2
      simp only [decide_eq_true_eq] at ha' hb'
      simp [msgLE, ha', hb']
    have hsub : List.Sublist
        ((rows.filterMap parseMessageRow).filter (fun m => m.timeCreated = k))
        (rows.filterMap parseMessageRow) :=
      List.filter_sublist _
    have h1 := List.sublist_mergeSort msgLE_trans msgLE_total hcp hsub
    have h2 : List.Perm
        ((readMessagesFromDb rows).filter (fun m => m.timeCreated = k))
        ((rows.filterMap parseMessageRow).filter
          (fun m => m.timeCreated = k)) :=
      (List.mergeSort_perm (rows.filterMap parseMessageRow) msgLE).filter _
    have h4 := h1.filter (fun m => m.timeCreated = k)
    rw [List.filter_eq_self.mpr (fun a ha => (List.mem_filter.mp ha).2)] at h4
    exact (h4.eq_of_length h2.length_eq.symm).symm

/-- C7: a malformed JSON blob on one message or part row makes exactly that
row be skipped: removing the malformed row from the input leaves the output
of `readMessagesFromDb` and of `readAllPartsForSessionFromDb` unchanged,
and both embeddings are total functions (no exception escapes). -/
theorem readers_skip_malformed (rows1 rows2 : List MessageRow)
    (bad : MessageRow) (hbad : bad.data = MsgBlob.malformed)
    (prows1 prows2 : List PartRow) (pbad : PartRow)
    (hpbad : pbad.data = PartBlob.malformed) :
    readMessagesFromDb (rows1 ++ bad :: rows2)
      = readMessagesFromDb (rows1 ++ rows2) ∧
    ∀ m, readAllPartsForSessionFromDb (prows1 ++ pbad :: prows2) m
        = readAllPartsForSessionFromDb (prows1 ++ prows2) m := by
  constructor
  · unfold readMessagesFromDb
    congr 1
    simp [List.filterMap_append, parseMessageRow, hbad]
  · intro m
    unfold readAllPartsForSessionFromDb
    rw [List.foldl_append, List.foldl_append, List.foldl_cons]
    have hstep : ∀ acc, partStep acc pbad = acc := by
      intro acc
      simp [partStep, hpbad]
    rw [hstep]

/-- C7 witness: one well-formed and one malformed row for each reader; the
malformed row does not change the output. -/
theorem readers_skip_malformed_witness :
    badMsgRow.data = MsgBlob.malformed ∧
    badPartRow.data = PartBlob.malformed ∧
    readMessagesFromDb [goodMsgRow, badMsgRow]
      = readMessagesFromDb [goodMsgRow] ∧
    readAllPartsForSessionFromDb [conflictPartRow, badPartRow] "msg-1"
      = readAllPartsForSessionFromDb [conflictPartRow] "msg-1" := by
  have h1 : badMsgRow.data = MsgBlob.malformed := rfl
  have h2 : badPartRow.data = PartBlob.malformed := rfl
  have r := readers_skip_malformed [goodMsgRow] [] badMsgRow h1
    [conflictPartRow] [] badPartRow h2
  exact ⟨h1, h2, by simpa using r.1, by simpa using r.2 "msg-1"⟩

/-- C8: every failure mode of the sqlite3 invocation — a rejected exec
promise (spawn failure or timeout), a non-zero exit code, or empty output —
makes `queryDb` return the empty row list instead of throwing; and
`getOpenCodeStoragePath` returns a path only when it exists (otherwise
`null`). -/
theorem readers_fail_soft :
    (∀ (T : Type) (parseJson : String → Option (List T)),
        queryDb ExecOutcome.threw parseJson = []) ∧
    (∀ (T : Type) (parseJson : String → Option (List T)) (r : ExecResult),
        r.code ≠ 0 → queryDb (ExecOutcome.finished r) parseJson = []) ∧
    (∀ (T : Type) (parseJson : String → Option (List T)) (r : ExecResult),
        jsTrim r.stdout = "" → queryDb (ExecOutcome.finished r) parseJson = []) ∧
    (∀ (env : Env) (pathExists : String → Bool) (p : String),
        getOpenCodeStoragePath env pathExists = some p → pathExists p = true) := by
  refine ⟨?_, ?_, ?_, ?_⟩
  · intro T parseJson
    rfl
  · intro T parseJson r h
    simp [queryDb, h]
  · intro T parseJson r h
    by_cases hc : r.code ≠ 0 <;> simp [queryDb, hc, h]
  · intro env pathExists p h
    obtain ⟨osp, xdg, lad, plat, home⟩ := env
    cases osp with
    | some c =>
        simp only [getOpenCodeStoragePath] at h
        split_ifs at h with hex
        have := Option.some.inj h
        subst this
        exact hex
    | none =>
        simp only [getOpenCodeStoragePath] at h
        split_ifs at h with hex
        have := Option.some.inj h
        subst this
        exact hex

/-- C8 witness: a rejected exec, a non-zero exit, empty output, and an
environment whose override path exists. -/
theorem readers_fail_soft_witness :
    queryDb ExecOutcome.threw parseNone = [] ∧
    (execFail.code ≠ 0 ∧
      queryDb (ExecOutcome.finished execFail) parseNone = []) ∧
    (jsTrim execEmpty.stdout = "" ∧
      queryDb (ExecOutcome.finished execEmpty) parseNone = []) ∧
    (getOpenCodeStoragePath envEx existsEx = some "/data/opencode/storage" ∧
      existsEx "/data/opencode/storage" = true) := by
  have h2 : execFail.code ≠ 0 := by decide
  have h3 : jsTrim execEmpty.stdout = "" := by decide
  have h4 : getOpenCodeStoragePath envEx existsEx
      = some "/data/opencode/storage" := by decide
  exact ⟨readers_fail_soft.1 Nat parseNone,
    ⟨h2, readers_fail_soft.2.1 Nat parseNone execFail h2⟩,
    ⟨h3, readers_fail_soft.2.2.1 Nat parseNone execEmpty h3⟩,
    ⟨h4, readers_fail_soft.2.2.2 envEx existsEx _ h4⟩⟩

/-- Applying the part-row fold to a bucket map appends, per message id, the
merged parts of the parseable rows carrying that id, in row order. -/
theorem partsFold_apply (rows : List PartRow) (acc : String → List JObj)
    (m : String) :
    rows.foldl partStep acc m
      = acc m ++ rows.filterMap (fun r =>
          if r.message_id = m then
            match r.data with
            | PartBlob.parsed d => some (mergePart r d)
            | PartBlob.malformed => none
          else none) := by
  induction rows generalizing acc with
  | nil => simp
  | cons r t ih =>
      rw [List.foldl_cons, ih]
      rcases hd : r.data with _ | d
      · simp [partStep, hd, List.filterMap_cons]
      · by_cases hm : r.message_id = m
        · subst hm
          simp [partStep, hd, List.filterMap_cons]
        · have hm' : ¬(m = r.message_id) := fun hh => hm hh.symm
          simp [partStep, hd, hm, hm', List.filterMap_cons]

/-- Looking up the key just set returns the new value. -/
theorem lookupKey_setKey_same (o : JObj) (k : String) (v : JVal) :
    lookupKey (setKey o k v) k = some v := by
  unfold lookupKey setKey
  rw [List.find?_append]
  have h1 : (o.filter (fun kv => kv.1 ≠ k)).find? (fun kv => kv.1 = k)
      = none := by
    rw [List.find?_eq_none]
    intro x hx
    have hx2 := (List.mem_filter.mp hx).2
    simpa using hx2
  rw [h1]
  simp

/-- Setting one key leaves lookups of other keys unchanged. -/
theorem lookupKey_setKey_ne (o : JObj) (k k2 : String) (v : JVal)
    (h : k2 ≠ k) :
    lookupKey (setKey o k v) k2 = lookupKey o k2 := by
  unfold lookupKey setKey
  rw [List.find?_append]
  have h1 : (o.filter (fun kv => kv.1 ≠ k)).find? (fun kv => kv.1 = k2)
      = o.find? (fun kv => kv.1 = k2) := by
    induction o with
    | nil => rfl
    | cons a t ih =>
        by_cases ha : a.1 = k
        · have hak2 : ¬(a.1 = k2) := by
            rw [ha]
            exact fun hh => h hh.symm
          rw [List.filter_cons_of_neg (by simp [ha]), ih,
            List.find?_cons_of_neg t (by simp [hak2])]
        · by_cases ha2 : a.1 = k2
          · rw [List.filter_cons_of_pos (by simp [ha]),
              List.find?_cons_of_pos _ (by simp [ha2]),
              List.find?_cons_of_pos _ (by simp [ha2])]
          · rw [List.filter_cons_of_pos (by simp [ha]),
              List.find?_cons_of_neg _ (by simp [ha2]),
              List.find?_cons_of_neg _ (by simp [ha2]), ih]
  rw [h1]
  cases hfind : o.find? (fun kv => kv.1 = k2) with
  | some x => simp
  | none =>
      have hk : ¬(k = k2) := fun hh => h hh.symm
      simp [hk]

/-- C9: every part built from a parseable row is in the returned bucket of
its row's `message_id`, and its `id`, `messageID` and `sessionID` fields
hold the normalized column values — overriding any payload fields of the
same name — while all other payload fields are preserved. -/
theorem parts_columns_win (rows : List PartRow) (r : PartRow) (d : JObj)
    (hr : r ∈ rows) (hd : r.data = PartBlob.parsed d) :
    mergePart r d ∈ readAllPartsForSessionFromDb rows r.message_id ∧
    lookupKey (mergePart r d) "id" = some (JVal.str r.id) ∧
    lookupKey (mergePart r d) "messageID" = some (JVal.str r.message_id) ∧
    lookupKey (mergePart r d) "sessionID" = some (JVal.str r.session_id) ∧
    ∀ k, k ≠ "id" → k ≠ "messageID" → k ≠ "sessionID" →
      lookupKey (mergePart r d) k = lookupKey d k := by
  refine ⟨?_, ?_, ?_, ?_, ?_⟩
  · unfold readAllPartsForSessionFromDb
    rw [partsFold_apply]
    refine List.mem_append_right _ (List.mem_filterMap.mpr ⟨r, hr, ?_⟩)
    simp [hd]
  · unfold mergePart
    rw [lookupKey_setKey_ne _ _ _ _ (by decide),
      lookupKey_setKey_ne _ _ _ _ (by decide),
      lookupKey_setKey_same]
  · unfold mergePart
    rw [lookupKey_setKey_ne _ _ _ _ (by decide), lookupKey_setKey_same]
  · unfold mergePart
    rw [lookupKey_setKey_same]
  · intro k hk1 hk2 hk3
    unfold mergePart
    rw [lookupKey_setKey_ne _ _ _ _ hk3, lookupKey_setKey_ne _ _ _ _ hk2,
      lookupKey_setKey_ne _ _ _ _ hk1]

/-- C9 witness: a row whose payload carries conflicting `id` and `messageID`
fields; the returned part carries the column values. -/
theorem parts_columns_win_witness :
    conflictPartRow ∈ [conflictPartRow] ∧
    conflictPartRow.data = PartBlob.parsed conflictPayload ∧
    lookupKey conflictPayload "id" = some (JVal.str "payload-id") ∧
    mergePart conflictPartRow conflictPayload
      ∈ readAllPartsForSessionFromDb [conflictPartRow] "msg-1" ∧
    lookupKey (mergePart conflictPartRow conflictPayload) "id"
      = some (JVal.str "part-1") ∧
    lookupKey (mergePart conflictPartRow conflictPayload) "messageID"
      = some (JVal.str "msg-1") := by
  have h1 : conflictPartRow ∈ [conflictPartRow] := by simp
  have h2 : conflictPartRow.data = PartBlob.parsed conflictPayload := rfl
  have r := parts_columns_win [conflictPartRow] conflictPartRow
    conflictPayload h1 h2
  exact ⟨h1, h2, by decide, r.1, r.2.1, r.2.2.1⟩

/-- A doubled quote at the head of the scan produces one quote. -/
theorem unescapeChars_cons_sq (cs : List Char) :
    unescapeChars (sqChar :: sqChar :: cs)
      = (unescapeChars cs).map (fun l => sqChar :: l) := by
  rfl

/-- A non-quote character at the head of the scan is copied through. -/
theorem unescapeChars_cons_ne (c : Char) (cs : List Char)
    (h : ¬(c = sqChar)) :
    unescapeChars (c :: cs) = (unescapeChars cs).map (fun l => c :: l) := by
  rw [unescapeChars.eq_def]
  split
  · simp_all
  · rename_i c2 cs2 heq
    obtain ⟨rfl, rfl⟩ := List.cons.inj heq
    rw [if_neg h]

/-- Unescaping inverts the quote-doubling escape. -/
theorem unescape_escape (l : List Char) :
    unescapeChars (l.flatMap
      (fun c => if c = sqChar then [sqChar, sqChar] else [c])) = some l := by
  induction l with
  | nil => rfl
  | cons c t ih =>
      rw [List.flatMap_cons]
      by_cases hc : c = sqChar
      · subst hc
        rw [if_pos rfl, List.cons_append, List.cons_append, List.nil_append,
          unescapeChars_cons_sq, ih]
        rfl
      · rw [if_neg hc, List.singleton_append, unescapeChars_cons_ne c _ hc, ih]
        rfl

/-- The escape exactly doubles the number of single quotes. -/
theorem count_escape (l : List Char) :
    (l.flatMap
        (fun c => if c = sqChar then [sqChar, sqChar] else [c])).count sqChar
      = 2 * l.count sqChar := by
  induction l with
  | nil => rfl
  | cons c t ih =>
      by_cases hc : c = sqChar <;>
        simp [List.count_append, List.count_cons, hc, ih] <;> omega

/-- C10: for every session id — quotes included — the SQL text built by the
two readers has the fixed shape `prefix ++ escaped ++ closing` with the
session id only inside the single-quoted literal: every single quote is
doubled (the quote count doubles and the pair-scanning unescape succeeds),
and unescaping the literal recovers the session id exactly. -/
theorem sql_session_id_quoted (sessionId : String) :
    (messagesSql sessionId).data
      = messagesSqlPrefix.data ++ (escapeSqlString sessionId).data
          ++ [sqChar] ∧
    (partsSql sessionId).data
      = partsSqlPrefix.data ++ (escapeSqlString sessionId).data
          ++ partsSqlSuffix.data ∧
    unescapeChars (escapeSqlString sessionId).data = some sessionId.data ∧
    (escapeSqlString sessionId).data.count sqChar
      = 2 * sessionId.data.count sqChar := by
  refine ⟨?_, ?_, ?_, ?_⟩
  · simp [messagesSql, sqS, String.singleton]
  · simp [partsSql, partsSqlSuffix, sqS, String.singleton]
  · exact unescape_escape sessionId.data
  · exact count_escape sessionId.data
